import Mathlib

/-!
Verification of the claude-cli-proxy server (server.js) against its
natural-language specification.  The JavaScript functions relevant to the
claims are shallowly embedded below as executable Lean definitions:
pure string/list processing is translated directly, the streaming
translator becomes an explicit state machine over CLI events, and the
filesystem is modelled as a map from paths to parsed session entries.
-/

namespace CliProxy

/-! ## Gateway metadata tag stripping (server.js line 93)

The constant GATEWAY_TAG_RE is the JavaScript regex
/\[\[reply_to_message_id:\s*\d+\]\]\s*/g and is applied with
String.prototype.replace(re, ""): the scanner walks left to right,
removes each leftmost non-overlapping match and continues after it.
The regex is deterministic here because \s, \d and the literal parts
are pairwise disjoint, so greedy maximal munch equals regex semantics. -/

/-- Character class for the JavaScript regex escape \s
(space, tab, line terminators, and the Unicode space separators). -/
def isJsSpace (c : Char) : Bool :=
  c = ' ' || c = '\t' || c = '\n' || c.toNat = 11 || c.toNat = 12 || c = '\r' ||
  c.toNat = 0xa0 || c.toNat = 0x1680 ||
  (0x2000 ≤ c.toNat && c.toNat ≤ 0x200a) ||
  c.toNat = 0x2028 || c.toNat = 0x2029 || c.toNat = 0x202f ||
  c.toNat = 0x205f || c.toNat = 0x3000 || c.toNat = 0xfeff

/-- Character class for the JavaScript regex escape \d. -/
def isDigitCh (c : Char) : Bool :=
  '0' ≤ c && c ≤ '9'

/-- Consume a literal character sequence from the front of a list,
returning the rest on success. -/
def dropLit : List Char → List Char → Option (List Char)
  | [], l => some l
  | _ :: _, [] => none
  | p :: ps, c :: cs => if c = p then dropLit ps cs else none

/-- Literal opening part of GATEWAY_TAG_RE. -/
def tagOpenLit : List Char := "[[reply_to_message_id:".data

/-- Literal closing part of GATEWAY_TAG_RE. -/
def tagCloseLit : List Char := "]]".data

/-- Attempt to match GATEWAY_TAG_RE at the head of the list; on success
return the suffix after the match (the match includes the greedy
trailing \s*). -/
def matchTag (l : List Char) : Option (List Char) :=
  match dropLit tagOpenLit l with
  | none => none
  | some r1 =>
    let r2 := r1.dropWhile isJsSpace
    if (r2.takeWhile isDigitCh).isEmpty then none
    else
      match dropLit tagCloseLit (r2.dropWhile isDigitCh) with
      | none => none
      | some r4 => some (r4.dropWhile isJsSpace)

/-- Fuel-indexed scanner for replace(GATEWAY_TAG_RE, ""): at each
position, remove a match and continue after it, otherwise keep the
character and advance by one.  Any fuel of at least the list length is
sufficient because each consumed unit of fuel strictly shortens the
list. -/
def stripGo : Nat → List Char → List Char
  | 0, l => l
  | _ + 1, [] => []
  | fuel + 1, c :: cs =>
    match matchTag (c :: cs) with
    | some rest => stripGo fuel rest
    | none => c :: stripGo fuel cs

/-- Replace every match of GATEWAY_TAG_RE in a character list with the
empty string. -/
def stripTagsL (l : List Char) : List Char :=
  stripGo l.length l

/-- Embedding of text.replace(GATEWAY_TAG_RE, "") on strings. -/
def stripGatewayTags (s : String) : String :=
  String.mk (stripTagsL s.data)

/-- Decidable check that no suffix of the list begins a GATEWAY_TAG_RE
match. -/
def noTagL : List Char → Bool
  | [] => true
  | c :: cs => (matchTag (c :: cs)).isNone && noTagL cs

/-! ## extractJsonObjects (server.js lines 244-289)

The brace-counting scanner.  JSON.parse is an external JavaScript
builtin; it is modelled as an oracle parameter parse returning
Option J, with the try/catch around it embedded as the none branch
(a failed parse is skipped, never raised). -/

/-- Scanner state of extractJsonObjects: the candidate start offset,
the (possibly negative) brace depth, and the string/escape flags. -/
structure ExtractState where
  startIndex : Nat
  braceCount : Int
  inString : Bool
  escapeNext : Bool
deriving DecidableEq

/-- Translation of one iteration of the for-loop body of
extractJsonObjects: full is the whole buffer, i the current index,
c the character at i.  Returns the updated state and the objects
accumulated so far (newest first). -/
def extractStep {J : Type} (parse : List Char → Option J) (full : List Char)
    (i : Nat) (c : Char) (st : ExtractState) (objs : List J) :
    ExtractState × List J :=
  if st.escapeNext then
    ({ st with escapeNext := false }, objs)
  else if c = '\\' && st.inString then
    ({ st with escapeNext := true }, objs)
  else if c = '"' then
    ({ st with inString := !st.inString }, objs)
  else if !st.inString then
    if c = '{' then
      ({ st with startIndex := if st.braceCount = 0 then i else st.startIndex,
                 braceCount := st.braceCount + 1 }, objs)
    else if c = '}' then
      let bc := st.braceCount - 1
      if bc = 0 then
        let jsonStr := (full.drop st.startIndex).take (i + 1 - st.startIndex)
        let objs2 := match parse jsonStr with
          | some j => j :: objs
          | none => objs
        ({ st with braceCount := 0, startIndex := i + 1 }, objs2)
      else
        ({ st with braceCount := bc }, objs)
    else (st, objs)
  else (st, objs)

/-- Run the scanner over the remaining characters, tracking the absolute
index i.  Returns the accumulated objects (newest first) and the final
startIndex. -/
def extractGo {J : Type} (parse : List Char → Option J) (full : List Char) :
    List Char → Nat → ExtractState → List J → List J × Nat
  | [], _, st, objs => (objs, st.startIndex)
  | c :: rest, i, st, objs =>
    let r := extractStep parse full i c st objs
    extractGo parse full rest (i + 1) r.1 r.2

/-- Embedding of extractJsonObjects: returns the parsed objects in
buffer order and the remainder buffer.slice(startIndex). -/
def extractJsonObjects {J : Type} (parse : List Char → Option J)
    (buffer : List Char) : List J × List Char :=
  let r := extractGo parse buffer buffer 0 ⟨0, 0, false, false⟩ []
  (r.1.reverse, buffer.drop r.2)

/-! ## The streaming translator (server.js lines 587-1068)

handleStreamingResponse holds mutable per-run state and dispatches each
parsed CLI event through processStreamEvent; on child close it closes
any open non-tool block and emits the terminal message_delta and
message_stop.  The state record below copies the mutable variables of
handleStreamingResponse, and processStreamEvent is translated branch by
branch.  Monitor-only effects (emitMonitorEvent, logging, timers) have
no client-visible output and are dropped; the contentBlocks list keeps
its pushes because the source appends to it. -/

/-- Content block descriptor as carried by CLI content_block_start
events (type, text, id, name; absent JSON fields are empty strings). -/
structure CBlock where
  btype : String
  btext : String
  bid : String
  bname : String
deriving DecidableEq

/-- Delta payloads of content_block_delta events. -/
inductive Delta where
  | text_delta (text : String)
  | thinking_delta (thinking : String)
  | input_json_delta (partialJson : String)
  | otherDelta (dtype : String)
deriving DecidableEq

/-- Usage object of CLI message_delta / result events; absent numeric
fields are none (JavaScript reads them with || 0). -/
structure Usage where
  input_tokens : Option Nat
  cache_creation_input_tokens : Option Nat
  cache_read_input_tokens : Option Nat
  output_tokens : Option Nat
deriving DecidableEq

/-- CLI events consumed by processStreamEvent, one constructor per
dispatch branch of the source; unknown covers events that fall through
every branch. -/
inductive CliEvent where
  | content_block_start (block : CBlock)
  | content_block_delta (delta : Delta)
  | content_block_stop (index : Int)
  | message_delta (payload : Option String) (usage : Option Usage)
  | assistantMsg (blockTypes : List String)
  | userMsg (blockTypes : List String)
  | systemEv (subtype : String) (trigger : Option String) (preTokens : Option Nat)
  | legacySystemEvent (setype : String)
  | initEv
  | result (res : Option String) (usage : Option Usage)
  | unknown
deriving DecidableEq

/-- SSE events written to the client.  Both message_delta_fwd (a
forwarded CLI message_delta) and final_message_delta (the terminal
message_delta with stop_reason end_turn emitted on child close) appear
as event type message_delta on the wire. -/
inductive SseEvent where
  | message_start (mid mdl : String)
  | content_block_start (index : Int) (block : CBlock)
  | content_block_delta (index : Int) (delta : Delta)
  | content_block_stop (index : Int)
  | message_delta_fwd (payload : Option String) (usage : Option Usage)
  | final_message_delta (outputTokens : Nat)
  | message_stop
deriving DecidableEq

/-- Mutable per-run variables of handleStreamingResponse. -/
structure TransState where
  inputTokens : Nat
  outputTokens : Nat
  contentBlocks : List (Int × String)
  currentBlockIndex : Int
  currentBlockType : Option String
  sseBlockIndex : Int
  insideToolUseBlock : Bool
  messageStarted : Bool
  thinking : Bool
  toolUse : Option (String × String × String)
  textStarted : Bool
  textSent : Bool
  toolExecuting : Bool
  compacting : Bool
deriving DecidableEq

/-- Initial values of the per-run variables, as declared at the top of
handleStreamingResponse (messageStarted is set once message_start has
been written). -/
def initState : TransState where
  inputTokens := 0
  outputTokens := 0
  contentBlocks := []
  currentBlockIndex := -1
  currentBlockType := none
  sseBlockIndex := -1
  insideToolUseBlock := false
  messageStarted := true
  thinking := false
  toolUse := none
  textStarted := false
  textSent := false
  toolExecuting := false
  compacting := false

/-- Human-readable compaction notice injected on compact_boundary
(trigger label, optional token count; pre_tokens equal to 0 is falsy in
JavaScript and omitted). -/
def compactionNotice (trigger : Option String) (preTokens : Option Nat) : String :=
  let triggerLabel := if trigger = some "manual" then "Manual" else "Auto"
  let tokensLabel := match preTokens with
    | some n => if n ≠ 0 then " (" ++ toString n ++ " tokens)" else ""
    | none => ""
  "[" ++ triggerLabel ++ " context compaction" ++ tokensLabel ++
    " — summarizing conversation history...]"

/-- Translation of processStreamEvent (server.js lines 767-1067):
returns the updated state and the SSE events written to the client by
this call, in order. -/
def processStreamEvent (st : TransState) (e : CliEvent) :
    TransState × List SseEvent :=
  match e with
  | .content_block_start block =>
    let idx := st.currentBlockIndex + 1
    let st1 := { st with currentBlockIndex := idx,
                         currentBlockType := some block.btype,
                         contentBlocks := st.contentBlocks ++ [(idx, block.btype)] }
    if block.btype = "tool_use" then
      ({ st1 with insideToolUseBlock := true, toolExecuting := true,
                  toolUse := some (block.bid, block.bname, "") }, [])
    else
      let sse := st.sseBlockIndex + 1
      ({ st1 with compacting := false, toolExecuting := false,
                  sseBlockIndex := sse,
                  thinking := if block.btype = "thinking" then true else st.thinking,
                  textStarted := if block.btype = "text" then true else st.textStarted },
       [.content_block_start sse block])
  | .content_block_delta d =>
    if st.insideToolUseBlock then
      let st2 := match d with
        | .input_json_delta p =>
          match st.toolUse with
          | some (tid, tname, acc) => { st with toolUse := some (tid, tname, acc ++ p) }
          | none => st
        | _ => st
      (st2, [])
    else
      let d2 := match d with
        | .text_delta t => Delta.text_delta (stripGatewayTags t)
        | x => x
      let st2 := match d with
        | .text_delta _ => { st with textSent := true }
        | _ => st
      (st2, [.content_block_delta (if 0 ≤ st.sseBlockIndex then st.sseBlockIndex else 0) d2])
  | .content_block_stop _ =>
    if st.currentBlockType = some "tool_use" then
      ({ st with toolUse := none, insideToolUseBlock := false,
                 currentBlockType := none }, [])
    else
      ({ st with thinking := if st.currentBlockType = some "thinking" then false else st.thinking,
                 textStarted := if st.currentBlockType = some "text" then false else st.textStarted,
                 currentBlockType := none },
       [.content_block_stop (if 0 ≤ st.sseBlockIndex then st.sseBlockIndex else 0)])
  | .message_delta payload usage =>
    let st2 := match usage with
      | some u => { st with outputTokens := u.output_tokens.getD 0 }
      | none => st
    (st2, [.message_delta_fwd payload usage])
  | .assistantMsg _ => (st, [])
  | .userMsg _ => (st, [])
  | .systemEv subtype trigger preTokens =>
    if subtype = "compact_boundary" then
      let sse := st.sseBlockIndex + 1
      ({ st with compacting := true, sseBlockIndex := sse },
       [.content_block_start sse ⟨"text", "", "", ""⟩,
        .content_block_delta sse (.text_delta (compactionNotice trigger preTokens)),
        .content_block_stop sse])
    else (st, [])
  | .legacySystemEvent _ => (st, [])
  | .initEv => (st, [])
  | .result res usage =>
    let st1 := match usage with
      | some u => { st with
          inputTokens := u.input_tokens.getD 0 + u.cache_creation_input_tokens.getD 0 +
                         u.cache_read_input_tokens.getD 0,
          outputTokens := u.output_tokens.getD 0 }
      | none => st
    match res with
    | some r =>
      if r = "" then (st1, [])
      else if st1.textSent then (st1, [])
      else if st1.sseBlockIndex < 0 then
        ({ st1 with sseBlockIndex := 0,
                    contentBlocks := st1.contentBlocks ++ [(0, "text")] },
         [.content_block_start 0 ⟨"text", "", "", ""⟩,
          .content_block_delta 0 (.text_delta (stripGatewayTags r))])
      else
        (st1, [.content_block_delta st1.sseBlockIndex (.text_delta (stripGatewayTags r))])
    | none => (st1, [])
  | .unknown => (st, [])

/-- Fold processStreamEvent over a list of CLI events, concatenating the
written SSE events. -/
def processEvents : TransState → List CliEvent → TransState × List SseEvent
  | st, [] => (st, [])
  | st, e :: rest =>
    let r1 := processStreamEvent st e
    let r2 := processEvents r1.1 rest
    (r2.1, r1.2 ++ r2.2)

/-- SSE events written by the child close handler (server.js lines
688-738): close any open non-tool block, then the terminal
message_delta and message_stop. -/
def closeOutputs (st : TransState) : List SseEvent :=
  (if (st.thinking || st.textStarted) && !st.insideToolUseBlock then
     [SseEvent.content_block_stop (if 0 ≤ st.sseBlockIndex then st.sseBlockIndex else 0)]
   else []) ++
  [.final_message_delta st.outputTokens, .message_stop]

/-- Full client-visible SSE timeline of a streaming run that ends with a
normal child close: message_start, the translated events, and the close
handler output. -/
def runTranslator (evs : List CliEvent) (mid mdl : String) : List SseEvent :=
  let p := processEvents initState evs
  SseEvent.message_start mid mdl :: p.2 ++ closeOutputs p.1

/-- Indices of the content_block_start events of an SSE timeline, in
order of emission. -/
def startIndices (l : List SseEvent) : List Int :=
  l.filterMap fun ev => match ev with
    | .content_block_start i _ => some i
    | _ => none

/-- The list s, s+1, ..., s+m-1 as integers. -/
def natRangeFrom (s : Nat) : Nat → List Int
  | 0 => []
  | m + 1 => (s : Int) :: natRangeFrom (s + 1) m

/-- Predicate for an SSE content_block_start whose block type is
tool_use. -/
def isToolUseStart : SseEvent → Bool
  | .content_block_start _ b => b.btype = "tool_use"
  | _ => false

/-- Predicate for an SSE content_block_delta carrying an
input_json_delta. -/
def isInputJsonDelta : SseEvent → Bool
  | .content_block_delta _ (.input_json_delta _) => true
  | _ => false

/-- An SSE event is clean when it is neither a tool_use block start nor
an input_json_delta. -/
def sseOk (ev : SseEvent) : Bool :=
  !isToolUseStart ev && !isInputJsonDelta ev

/-- Whether the currently open CLI block (if any) is a tool_use block. -/
def toolOpen : Option String → Bool
  | some bt => bt = "tool_use"
  | none => false

/-- The CLI block open after an event, given the block open before it. -/
def obNext (e : CliEvent) (ob : Option String) : Option String :=
  match e with
  | .content_block_start b => some b.btype
  | .content_block_stop _ => none
  | _ => ob

/-- Local well-formedness of one CLI event given the currently open
block: starts require no open block, stops require one, and an
input_json_delta may occur only inside an open tool_use block. -/
def wfHead (e : CliEvent) (ob : Option String) : Bool :=
  match e with
  | .content_block_start _ => ob.isNone
  | .content_block_stop _ => ob.isSome
  | .content_block_delta (.input_json_delta _) => ob = some "tool_use"
  | _ => true

/-- Well-formedness of a CLI event stream, tracking the currently open
content block: blocks are opened and closed in a properly bracketed,
non-overlapping way, and input_json_delta payloads occur only inside an
open tool_use block.  Real CLI output satisfies this discipline. -/
def wfGo (ob : Option String) : List CliEvent → Bool
  | [] => true
  | e :: rest => wfHead e ob && wfGo (obNext e ob) rest

/-! ## Session registry and identity migration

The session registry of the running server maps session keys to
records carrying the session UUID and an optional canonical identity.
The identity-migration operation itself is not part of the server.js
snapshot under verification (only its test suite exercises it), so it
is modelled from the specification. -/

/-- Session record: uuid, last-used timestamp, optional canonical
identity. -/
structure SessionRecord where
  uuid : String
  lastUsed : Nat
  identity : Option String
deriving DecidableEq

/-- The in-memory session registry, a key-to-record map modelled as an
association list with Map semantics (at most one entry per key). -/
def Registry := List (String × SessionRecord)

/-- Exact-match lookup in the registry. -/
def lookupReg (reg : Registry) (key : String) : Option SessionRecord :=
  match reg.find? (fun kr => kr.1 = key) with
  | some kr => some kr.2
  | none => none

/-- Remove the entry stored under a key (Map.delete semantics). -/
def eraseReg (reg : Registry) (key : String) : Registry :=
  reg.filter (fun kr => !(kr.1 = key : Bool))

/-- Modelled from the spec: the migrate(sessionKey, identity) operation
of the Session Registry, which is absent from the server.js snapshot
(only its tests exist).  Per the spec: if there is no exact match for
the session key but some other entry carries the same non-empty
identity, transfer that entry to the new key (preserving uuid and
identity), delete the old key and return the record; migration is never
performed without an identity. -/
def migrate (reg : Registry) (key : String) (ident : Option String) :
    Option (SessionRecord × Registry) :=
  match ident with
  | none => none
  | some id =>
    if id = "" then none
    else if (lookupReg reg key).isSome then none
    else
      match reg.find? (fun kr => !(kr.1 = key : Bool) && kr.2.identity = some id) with
      | some kr => some (kr.2, (key, kr.2) :: eraseReg reg kr.1)
      | none => none

/-- Modelled from the spec: registry consultation of the Request
Handler (spec section 4.6 step 6, absent from the server.js snapshot in
this form): exact match resumes, else identity migration resumes, else
a new session whose uuid is derived from the key; the on-disk check
makes an untracked session resumable after a proxy restart.  Returns
the session uuid, the resume flag and the updated registry. -/
def resolveSession (reg : Registry) (key : String) (ident : Option String)
    (derive : String → String) (diskHasFile : String → Bool) :
    String × Bool × Registry :=
  match lookupReg reg key with
  | some r => (r.uuid, true, reg)
  | none =>
    match migrate reg key ident with
    | some (r, reg2) => (r.uuid, true, reg2)
    | none =>
      let uuid := derive key
      (uuid, diskHasFile uuid, reg)

/-! ## Session queue and preemption (server.js lines 491-516)

The enqueue step of handleMessages: a done-promise is registered as the
new queue tail before awaiting the previous tail, and any active run on
the same session key is sent SIGTERM.  The source performs this kill
unconditionally; the isRegenerate flag computed earlier in
handleMessages (line 385) is not consulted by this code. -/

/-- Engine state relevant to enqueueing: the active-run table (session
key to requestId of the running child) and the queue-tail table
(session key to an abstract tail token). -/
structure EngineState where
  activeRuns : List (String × String)
  sessionQueues : List (String × Nat)
  nextToken : Nat
deriving DecidableEq

/-- Association-list lookup used for both engine tables. -/
def lookupTab {β : Type} (tab : List (String × β)) (key : String) : Option β :=
  match tab.find? (fun kr => kr.1 = key) with
  | some kr => some kr.2
  | none => none

/-- Translation of server.js lines 491-504: create the done token and
publish it as the new tail, then kill the active run for the key if one
exists.  Returns the new state, the requestIds that were sent SIGTERM,
and the previous tail that the request will await.  The isRegenerate
parameter is carried to mirror the request data but the source never
reads it here: the kill happens for every request that finds an active
run. -/
def enqueueStep (st : EngineState) (sessionKey : String) (isRegenerate : Bool) :
    EngineState × List String × Option Nat :=
  let done := st.nextToken
  let prevTail := lookupTab st.sessionQueues sessionKey
  let queues2 := (sessionKey, done) ::
    st.sessionQueues.filter (fun kr => !(kr.1 = sessionKey : Bool))
  let killed := match lookupTab st.activeRuns sessionKey with
    | some rid => [rid]
    | none => []
  ({ st with sessionQueues := queues2, nextToken := done + 1 }, killed, prevTail)

/-! ## truncateSessionForRegenerate (server.js lines 186-238)

The function reads the session JSONL, locates the last real user entry,
collects it together with its forward-transitive descendants and the
immediately preceding file-history-snapshot, and writes the kept
entries to a new JSONL named by the fresh UUID.  The filesystem is
modelled as a map from paths to parsed entry lists; the claim under
verification presumes every line parses, so files hold entry lists
directly. -/

/-- Content of a session entry message: a string, an array of content
blocks (represented by their type tags), or absent. -/
inductive EContent where
  | cstr (s : String)
  | carr (blockTypes : List String)
  | cnone
deriving DecidableEq

/-- Message part of a session entry (role may be absent). -/
structure EMsg where
  role : Option String
  content : EContent
deriving DecidableEq

/-- One parsed line of a session JSONL. -/
structure SessionEntry where
  etype : String
  isCompactSummary : Bool
  uuid : String
  parentUuid : Option String
  message : Option EMsg
deriving DecidableEq

/-- The filter of the backwards search in truncateSessionForRegenerate:
a real user message has type user and role user, is not a compact
summary, and is not an array consisting solely of tool_result blocks
(Array.prototype.every is vacuously true on an empty array). -/
def isRealUser (e : SessionEntry) : Bool :=
  e.etype = "user" &&
  (match e.message with
   | some m => m.role = some "user"
   | none => false) &&
  !e.isCompactSummary &&
  !(match e.message with
    | some m =>
      match m.content with
      | .carr bs => bs.all (fun t => t = "tool_result")
      | _ => false
    | none => false)

/-- Last index (with its element) at which a predicate holds. -/
def lastWithIdx {α : Type} (p : α → Bool) : List α → Option (Nat × α)
  | [] => none
  | a :: as =>
    match lastWithIdx p as with
    | some ja => some (ja.1 + 1, ja.2)
    | none => if p a then some (0, a) else none

/-- Forward walk of the removal set: an entry whose parentUuid is
already scheduled for removal is removed as well (transitive
descendants, processed in file order). -/
def collectDescendants (remove : List String) : List SessionEntry → List String
  | [] => remove
  | e :: rest =>
    if (match e.parentUuid with
        | some p => remove.contains p
        | none => false) then
      collectDescendants (remove ++ [e.uuid]) rest
    else
      collectDescendants remove rest

/-- The removal set of truncateSessionForRegenerate given the index i
and entry ei of the last real user message: the entry itself, its
forward-transitive descendants, and the file-history-snapshot entry
immediately before it if present. -/
def removalList (entries : List SessionEntry) (i : Nat) (ei : SessionEntry) :
    List String :=
  let rm1 := collectDescendants [ei.uuid] (entries.drop (i + 1))
  match entries[i - 1]? with
  | some ep => if ep.etype = "file-history-snapshot" then rm1 ++ [ep.uuid] else rm1
  | none => rm1

/-- Entry-level core of truncateSessionForRegenerate: locate the last
real user entry (returning none when there is none or when it is the
first entry, mirroring lastUserIdx <= 0), build the removal set, and
keep the remaining entries in order. -/
def truncateEntries (entries : List SessionEntry) : Option (List SessionEntry) :=
  match lastWithIdx isRealUser entries with
  | none => none
  | some iei =>
    if iei.1 = 0 then none
    else
      some (entries.filter
        (fun e => !((removalList entries iei.1 iei.2).contains e.uuid)))

/-- A filesystem mapping paths to parsed session JSONL contents. -/
def Fs := String → Option (List SessionEntry)

/-- Path of a session JSONL: configDir/projects/cwdSlug/uuid.jsonl. -/
def sessionFilePath (configDir cwdSlug uuid : String) : String :=
  configDir ++ "/projects/" ++ cwdSlug ++ "/" ++ uuid ++ ".jsonl"

/-- Embedding of truncateSessionForRegenerate: read the original JSONL
(none when unreadable), truncate, and write the kept entries to the
fresh-UUID path, returning that path and the updated filesystem; the
original path is only read, never written. -/
def truncateSessionForRegenerate (fs : Fs) (configDir jsonlPath newUuid cwdSlug : String) :
    Option (String × Fs) :=
  match fs jsonlPath with
  | none => none
  | some entries =>
    match truncateEntries entries with
    | none => none
    | some kept =>
      let newPath := sessionFilePath configDir cwdSlug newUuid
      some (newPath, fun p => if p = newPath then some kept else fs p)

/-! ## handleNonStreamingResponse close handler (server.js lines 1083-1159)

On child close the collected stdout is passed to JSON.parse inside a
try/catch; the parsed value (or the parse failure) and the exit code
determine the HTTP response.  JSON.parse is external, so the handler is
embedded as a function of the parse outcome; parsed JavaScript values
are modelled up to the fields the handler reads, with numbers as
integers (only zero-versus-nonzero truthiness matters here). -/

/-- Parsed JSON value as seen by the close handler: primitives keep
their truthiness, objects expose the result and usage fields the
handler reads, arrays are truthy field-less objects. -/
inductive JsValue where
  | vnull
  | vbool (b : Bool)
  | vnum (n : Int)
  | vstr (s : String)
  | vobj (result : Option String) (usage : Option Usage)
  | varr
deriving DecidableEq

/-- JavaScript truthiness of a parsed JSON value. -/
def truthy : JsValue → Bool
  | .vnull => false
  | .vbool b => b
  | .vnum n => !(n = 0 : Bool)
  | .vstr s => !(s = "" : Bool)
  | .vobj _ _ => true
  | .varr => true

/-- Property access result.result on a parsed value (undefined on
non-objects). -/
def jsResultField : JsValue → Option String
  | .vobj r _ => r
  | _ => none

/-- Property access result.usage on a parsed value. -/
def jsUsageField : JsValue → Option Usage
  | .vobj _ u => u
  | _ => none

/-- JavaScript expression (usage?.input_tokens || 0) +
(usage?.cache_creation_input_tokens || 0) +
(usage?.cache_read_input_tokens || 0). -/
def usageInputSum (u : Option Usage) : Nat :=
  match u with
  | some uu => uu.input_tokens.getD 0 + uu.cache_creation_input_tokens.getD 0 +
               uu.cache_read_input_tokens.getD 0
  | none => 0

/-- JavaScript expression (usage?.output_tokens || 0). -/
def usageOutputTok (u : Option Usage) : Nat :=
  match u with
  | some uu => uu.output_tokens.getD 0
  | none => 0

/-- Body of the HTTP response produced by the close handler. -/
inductive RespBody where
  | errorBody (etype msg : String)
  | messageBody (text : String) (input_tokens output_tokens : Nat)
deriving DecidableEq

/-- HTTP response: status code and body. -/
structure HttpResponse where
  status : Nat
  body : RespBody
deriving DecidableEq

/-- Translation of the close handler of handleNonStreamingResponse:
parsed is the JSON.parse outcome on the collected stdout, code the
child exit code, stderr the collected stderr.  A parse failure with a
non-zero exit code returns 500 with the stderr text (or a fallback); a
falsy parse result returns 500 No parseable output; otherwise a 200
message whose text is the stripped result field and whose input tokens
sum the base, cache-creation and cache-read counts. -/
def handleNonStreamingClose (parsed : Option JsValue) (code : Int) (stderr : String) :
    HttpResponse :=
  match parsed with
  | none =>
    if !(code = 0 : Bool) then
      ⟨500, .errorBody "api_error" (if stderr = "" then "Claude CLI failed" else stderr)⟩
    else
      ⟨500, .errorBody "api_error" "No parseable output from CLI"⟩
  | some v =>
    if !truthy v then
      ⟨500, .errorBody "api_error" "No parseable output from CLI"⟩
    else
      ⟨200, .messageBody (stripGatewayTags ((jsResultField v).getD ""))
        (usageInputSum (jsUsageField v)) (usageOutputTok (jsUsageField v))⟩

/-! # Theorems -/

/-! ## Gateway tag stripping (claim C9) -/

/-- Helper: when no suffix of the list starts a tag match, the scanner
copies the list unchanged, for any fuel. -/
theorem stripGo_of_noTag : ∀ (fuel : Nat) (l : List Char),
    noTagL l = true → stripGo fuel l = l := by
  intro fuel
  induction fuel with
  | zero => intro l _; rfl
  | succ n ih =>
    intro l hl
    cases l with
    | nil => rfl
    | cons c cs =>
      have h1 : (matchTag (c :: cs)).isNone = true ∧ noTagL cs = true := by
        have := hl
        simp only [noTagL, Bool.and_eq_true] at this
        exact this
      have h2 : matchTag (c :: cs) = none := by
        cases hm : matchTag (c :: cs) with
        | none => rfl
        | some r => rw [hm] at h1; simp at h1
      simp only [stripGo, h2]
      rw [ih cs h1.2]

/-- Claim C9 (corrected, counterexample): applying the gateway-tag
stripping twice does not always agree with applying it once.  On the
string below the first pass removes the inner tag, and the removal
splices the surrounding characters into a new well-formed tag which
only a second pass removes. -/
theorem strip_twice_ne_strip_once :
    stripGatewayTags (stripGatewayTags
        "[[reply_to_message_id: [[reply_to_message_id: 5]] 7]]")
      ≠ stripGatewayTags "[[reply_to_message_id: [[reply_to_message_id: 5]] 7]]" := by
  decide

/-- Claim C9 (amended): the stripping is idempotent on every string
whose once-stripped form contains no remaining tag match; in general a
second application can remove tags newly formed by the first removal. -/
theorem strip_idempotent_of_no_residual_tag (s : String)
    (h : noTagL (stripGatewayTags s).data = true) :
    stripGatewayTags (stripGatewayTags s) = stripGatewayTags s := by
  show String.mk (stripTagsL (stripGatewayTags s).data) = stripGatewayTags s
  have hdata : (stripGatewayTags s).data = stripTagsL s.data := rfl
  rw [hdata] at h ⊢
  have h2 : stripTagsL (stripTagsL s.data) = stripTagsL s.data := by
    show stripGo (stripTagsL s.data).length (stripTagsL s.data) = stripTagsL s.data
    exact stripGo_of_noTag _ _ h
  rw [h2]
  rfl

/-- Witness for the amended claim C9 at a concrete tag-free string. -/
theorem strip_idempotent_witness :
    noTagL (stripGatewayTags "hello [b]").data = true ∧
      stripGatewayTags (stripGatewayTags "hello [b]") = stripGatewayTags "hello [b]" :=
  ⟨by decide, strip_idempotent_of_no_residual_tag "hello [b]" (by decide)⟩

/-! ## extractJsonObjects safety (claim C10) -/

/-- Claim C10 (confirmed): extractJsonObjects is a total function for
every parse oracle (the try/catch around JSON.parse is embedded as an
Option, so slices that fail to parse are skipped and nothing is
raised), and the returned remainder is the input buffer from the final
start index to its end, hence a contiguous suffix of the input. -/
theorem extract_remainder_is_suffix {J : Type} (parse : List Char → Option J)
    (buffer : List Char) :
    (∃ k, (extractJsonObjects parse buffer).2 = buffer.drop k) ∧
      List.IsSuffix (extractJsonObjects parse buffer).2 buffer := by
  constructor
  · exact ⟨(extractGo parse buffer buffer 0 ⟨0, 0, false, false⟩ []).2, rfl⟩
  · show List.IsSuffix (buffer.drop _) buffer
    exact List.drop_suffix _ _

/-! ## Stray closing brace (claim C7) -/

/-- Claim C7 (corrected, counterexample): on the buffer consisting of a
stray closing brace followed by a complete JSON object, the scanner
extracts nothing — the stray brace drives the depth counter to -1, so
the following object never brings it back to zero — even with a parse
oracle that accepts every slice.  The claim predicts that the later
object is still extracted. -/
theorem stray_brace_blocks_later_objects :
    (extractJsonObjects (fun s => some s) "\x7d\x7b\"a\":1\x7d".data).1 = [] ∧
      (extractJsonObjects (fun s => some s) "\x7d\x7b\"a\":1\x7d".data).2 =
        "\x7d\x7b\"a\":1\x7d".data := by
  decide

/-- Claim C7 (amended): a closing brace met outside a string while the
depth counter is zero leaves the candidate start pointer unchanged and
emits nothing, but it decrements the depth counter to -1, so a complete
JSON object later in the buffer is extracted only after an additional
unmatched opening brace restores the depth. -/
theorem stray_brace_step {J : Type} (parse : List Char → Option J)
    (full : List Char) (i : Nat) (st : ExtractState) (objs : List J)
    (hstr : st.inString = false) (hesc : st.escapeNext = false)
    (hbc : st.braceCount = 0) :
    (extractStep parse full i '\x7d' st objs).1.startIndex = st.startIndex ∧
      (extractStep parse full i '\x7d' st objs).1.braceCount = -1 ∧
      (extractStep parse full i '\x7d' st objs).2 = objs := by
  simp [extractStep, hstr, hesc, hbc]

/-- Witness for the amended claim C7 at a concrete scanner state. -/
theorem stray_brace_step_witness :
    (extractStep (fun s => some s) "\x7d".data 0 '\x7d' ⟨3, 0, false, false⟩
        ([] : List (List Char))).1.startIndex = 3 ∧
      (extractStep (fun s => some s) "\x7d".data 0 '\x7d' ⟨3, 0, false, false⟩
        ([] : List (List Char))).1.braceCount = -1 :=
  ⟨(stray_brace_step (fun s => some s) "\x7d".data 0 ⟨3, 0, false, false⟩ []
      rfl rfl rfl).1,
   (stray_brace_step (fun s => some s) "\x7d".data 0 ⟨3, 0, false, false⟩ []
      rfl rfl rfl).2.1⟩

/-! ## Non-streaming close handler (claim C8) -/

/-- Claim C8 (corrected, counterexample): a child stdout of the four
characters null parses as JSON (to the value null), yet the handler
responds 500: the falsy parsed value fails the if (!result) check.  The
claim states that 500 is returned only when stdout is not parseable. -/
theorem parseable_null_still_500 :
    (handleNonStreamingClose (some JsValue.vnull) 0 "").status = 500 ∧
      (handleNonStreamingClose (some (JsValue.vnum 0)) 0 "").status = 500 := by
  decide

/-- Claim C8 (amended): whenever stdout parses to a truthy JSON value —
in particular to any JSON object — the handler responds 200 with a
single text block equal to the stripped result field and input tokens
summing the base, cache-creation and cache-read counts, regardless of
the child exit code; 500 is returned exactly when stdout is unparseable
or parses to a falsy value (null, false, 0, empty string). -/
theorem nonstreaming_success_shape (r : Option String) (u : Option Usage)
    (code : Int) (stderr : String) (v : JsValue) (hv : truthy v = false) :
    handleNonStreamingClose (some (JsValue.vobj r u)) code stderr =
        ⟨200, .messageBody (stripGatewayTags (r.getD ""))
          (usageInputSum u) (usageOutputTok u)⟩ ∧
      (handleNonStreamingClose (some v) code stderr).status = 500 ∧
      (handleNonStreamingClose none code stderr).status = 500 := by
  refine ⟨?_, ?_, ?_⟩
  · simp [handleNonStreamingClose, truthy, jsResultField, jsUsageField]
  · simp [handleNonStreamingClose, hv]
  · by_cases hc : code = 0 <;> simp [handleNonStreamingClose, hc]

/-- Witness for the amended claim C8 at a concrete parse outcome. -/
theorem nonstreaming_success_witness :
    handleNonStreamingClose
        (some (JsValue.vobj (some "done [[reply_to_message_id: 7]]")
          (some ⟨some 3, some 5, some 11, some 2⟩))) 1 "quota" =
      ⟨200, .messageBody "done " 19 2⟩ :=
  ((nonstreaming_success_shape (some "done [[reply_to_message_id: 7]]")
      (some ⟨some 3, some 5, some 11, some 2⟩) 1 "quota" JsValue.vnull rfl).1).trans
    (by decide)

/-! ## Queue preemption (claim C1) -/

/-- Claim C1 (code bug): the enqueue step of handleMessages kills the
active run for the session key no matter whether the request carries
the regenerate flag — the flag is never consulted by server.js lines
491-516, although the spec forbids implicit preemption and the test
suite (test/queue/preemption.test.js) asserts that a non-regenerate
request must not kill the active child.  Evaluated at the failing
input: an active run req_1 on key k and a new non-regenerate request
for k, the child of req_1 is sent SIGTERM. -/
theorem nonregenerate_request_kills_active_child :
    (∀ (st : EngineState) (key : String),
        (enqueueStep st key false).2.1 = (enqueueStep st key true).2.1) ∧
      (enqueueStep ⟨[("k", "req_1")], [("k", 7)], 8⟩ "k" false).2.1 = ["req_1"] ∧
      (enqueueStep ⟨[("k", "req_1")], [("k", 7)], 8⟩ "k" true).2.1 = ["req_1"] ∧
      (enqueueStep ⟨[("k", "req_1")], [("k", 7)], 8⟩ "k" false).2.2 = some 7 := by
  refine ⟨fun st key => rfl, by decide, by decide, by decide⟩

/-! ## SSE block index contiguity (claim C3) -/

/-- Helper: length of a consecutive integer range. -/
theorem natRangeFrom_length : ∀ (m s : Nat), (natRangeFrom s m).length = m := by
  intro m
  induction m with
  | zero => intro s; rfl
  | succ k ih => intro s; simp [natRangeFrom, ih]

/-- Helper: consecutive integer ranges concatenate. -/
theorem natRangeFrom_append : ∀ (m1 s m2 : Nat),
    natRangeFrom s m1 ++ natRangeFrom (s + m1) m2 = natRangeFrom s (m1 + m2) := by
  intro m1
  induction m1 with
  | zero => intro s m2; simp [natRangeFrom]
  | succ k ih =>
    intro s m2
    have h1 : s + (k + 1) = (s + 1) + k := by omega
    have h2 : k + 1 + m2 = (k + m2) + 1 := by omega
    simp only [natRangeFrom, List.cons_append, h1, h2]
    rw [ih (s + 1) m2]

/-- Helper: the close handler emits no content_block_start. -/
theorem startIndices_closeOutputs (st : TransState) :
    startIndices (closeOutputs st) = [] := by
  unfold closeOutputs startIndices
  split <;> simp

/-- Helper: one translator step appends a consecutive run of block
indices: if the SSE index equals n - 1 (n blocks started so far), the
step emits starts indexed n, n+1, ... and leaves the SSE index one
below the new count. -/
theorem step_startIndices (st : TransState) (e : CliEvent) (n : Nat)
    (h : st.sseBlockIndex = (n : Int) - 1) :
    ∃ m, startIndices (processStreamEvent st e).2 = natRangeFrom n m ∧
      (processStreamEvent st e).1.sseBlockIndex = ((n + m : Nat) : Int) - 1 := by
  cases e with
  | content_block_start b =>
    by_cases hb : b.btype = "tool_use"
    · exact ⟨0, by simp [processStreamEvent, hb, startIndices, natRangeFrom],
        by simp [processStreamEvent, hb, h]⟩
    · refine ⟨1, ?_, ?_⟩
      · simp [processStreamEvent, hb, startIndices, natRangeFrom, h]
      · simp [processStreamEvent, hb, h]
  | content_block_delta d =>
    refine ⟨0, ?_, ?_⟩
    · by_cases hin : st.insideToolUseBlock <;>
        simp [processStreamEvent, hin, startIndices, natRangeFrom]
    · by_cases hin : st.insideToolUseBlock
      · cases d <;> cases hml : st.toolUse <;>
          simp [processStreamEvent, hin, hml, h]
      · cases d <;> simp [processStreamEvent, hin, h]
  | content_block_stop i =>
    refine ⟨0, ?_, ?_⟩ <;>
      by_cases hbt : st.currentBlockType = some "tool_use" <;>
        simp [processStreamEvent, hbt, startIndices, natRangeFrom, h]
  | message_delta payload usage =>
    refine ⟨0, ?_, ?_⟩ <;> cases usage <;>
      simp [processStreamEvent, startIndices, natRangeFrom, h]
  | assistantMsg bt => exact ⟨0, by simp [processStreamEvent, startIndices, natRangeFrom], by simp [processStreamEvent, h]⟩
  | userMsg bt => exact ⟨0, by simp [processStreamEvent, startIndices, natRangeFrom], by simp [processStreamEvent, h]⟩
  | systemEv subtype trigger preTokens =>
    by_cases hs : subtype = "compact_boundary"
    · refine ⟨1, ?_, ?_⟩
      · simp [processStreamEvent, hs, startIndices, natRangeFrom, h]
      · simp [processStreamEvent, hs, h]
    · exact ⟨0, by simp [processStreamEvent, hs, startIndices, natRangeFrom],
        by simp [processStreamEvent, hs, h]⟩
  | legacySystemEvent s => exact ⟨0, by simp [processStreamEvent, startIndices, natRangeFrom], by simp [processStreamEvent, h]⟩
  | initEv => exact ⟨0, by simp [processStreamEvent, startIndices, natRangeFrom], by simp [processStreamEvent, h]⟩
  | result res usage =>
    cases res with
    | none =>
      refine ⟨0, ?_, ?_⟩ <;> cases usage <;>
        simp [processStreamEvent, startIndices, natRangeFrom, h]
    | some r =>
      by_cases hr : r = ""
      · refine ⟨0, ?_, ?_⟩ <;> cases usage <;>
          simp [processStreamEvent, startIndices, natRangeFrom, hr, h]
      · by_cases hts : st.textSent
        · refine ⟨0, ?_, ?_⟩ <;> cases usage <;>
            simp [processStreamEvent, startIndices, natRangeFrom, hr, hts, h]
        · by_cases hneg : st.sseBlockIndex < 0
          · have hn : n = 0 := by omega
            subst hn
            refine ⟨1, ?_, ?_⟩ <;> cases usage <;>
              simp [processStreamEvent, startIndices, natRangeFrom, hr, hts, hneg, h]
          · have hn0 : n ≠ 0 := by omega
            refine ⟨0, ?_, ?_⟩ <;> cases usage <;>
              simp [processStreamEvent, startIndices, natRangeFrom, hr, hts, hneg, hn0, h]
  | unknown => exact ⟨0, by simp [processStreamEvent, startIndices, natRangeFrom], by simp [processStreamEvent, h]⟩

/-- Helper: folding the translator over an event list appends a
consecutive run of start indices beginning at the current count. -/
theorem processEvents_startIndices : ∀ (evs : List CliEvent) (st : TransState) (n : Nat),
    st.sseBlockIndex = (n : Int) - 1 →
    ∃ m, startIndices (processEvents st evs).2 = natRangeFrom n m ∧
      (processEvents st evs).1.sseBlockIndex = ((n + m : Nat) : Int) - 1 := by
  intro evs
  induction evs with
  | nil =>
    intro st n h
    exact ⟨0, by simp [processEvents, startIndices, natRangeFrom], by simp [processEvents, h]⟩
  | cons e rest ih =>
    intro st n h
    obtain ⟨m1, hout1, hst1⟩ := step_startIndices st e n h
    obtain ⟨m2, hout2, hst2⟩ := ih (processStreamEvent st e).1 (n + m1) hst1
    refine ⟨m1 + m2, ?_, ?_⟩
    · show startIndices ((processStreamEvent st e).2 ++
        (processEvents (processStreamEvent st e).1 rest).2) = _
      unfold startIndices at hout1 hout2 ⊢
      rw [List.filterMap_append, hout1, hout2, natRangeFrom_append]
    · show (processEvents (processStreamEvent st e).1 rest).1.sseBlockIndex = _
      rw [hst2]
      congr 1
      omega

/-- Claim C3 (confirmed): over any CLI event stream, the index fields
of the content_block_start events written to the client (including
injected compaction-notice blocks and the synthetic final-text block)
form the contiguous, strictly increasing sequence 0, 1, 2, .... -/
theorem sse_start_indices_contiguous (evs : List CliEvent) (mid mdl : String) :
    startIndices (runTranslator evs mid mdl) =
      natRangeFrom 0 (startIndices (runTranslator evs mid mdl)).length := by
  obtain ⟨m, hout, hst⟩ := processEvents_startIndices evs initState 0 (by rfl)
  have hrun : startIndices (runTranslator evs mid mdl) = natRangeFrom 0 m := by
    unfold runTranslator
    unfold startIndices at hout ⊢
    simp only [List.filterMap_cons, List.filterMap_append]
    rw [hout]
    have hclose := startIndices_closeOutputs (processEvents initState evs).1
    unfold startIndices at hclose
    rw [hclose]
    simp
  rw [hrun, natRangeFrom_length, ← hrun, hrun]

/-! ## Tool_use filtering (claim C2) -/

/-- Helper: the close handler never emits a tool_use block start or an
input_json_delta. -/
theorem closeOutputs_sseOk (st : TransState) : (closeOutputs st).all sseOk = true := by
  unfold closeOutputs
  split <;> simp [sseOk, isToolUseStart, isInputJsonDelta]

/-- Helper: one translator step on a locally well-formed event emits
only clean SSE events and keeps the translator block state aligned with
the CLI block discipline. -/
theorem step_sseOk (st : TransState) (e : CliEvent) (ob : Option String)
    (h1 : st.currentBlockType = ob) (h2 : st.insideToolUseBlock = toolOpen ob)
    (hwf : wfHead e ob = true) :
    ((processStreamEvent st e).2.all sseOk = true) ∧
      (processStreamEvent st e).1.currentBlockType = obNext e ob ∧
      (processStreamEvent st e).1.insideToolUseBlock = toolOpen (obNext e ob) := by
  cases e with
  | content_block_start b =>
    cases ob with
    | some bt => simp [wfHead] at hwf
    | none =>
      have h2f : st.insideToolUseBlock = false := by simpa [toolOpen] using h2
      by_cases hb : b.btype = "tool_use"
      · simp [processStreamEvent, hb, obNext, toolOpen, h2f]
      · simp [processStreamEvent, hb, obNext, toolOpen, h2f, sseOk,
          isToolUseStart, isInputJsonDelta]
  | content_block_delta d =>
    cases d with
    | input_json_delta p =>
      have hob : ob = some "tool_use" := by
        simpa [wfHead, decide_eq_true_eq] using hwf
      subst hob
      have h2t : st.insideToolUseBlock = true := by
        rw [h2]; rfl
      cases htu : st.toolUse with
      | none => simp [processStreamEvent, h2t, htu, obNext, toolOpen, h1]
      | some t =>
        obtain ⟨tid, tname, acc⟩ := t
        simp [processStreamEvent, h2t, htu, obNext, toolOpen, h1]
    | text_delta t =>
      by_cases hin : st.insideToolUseBlock
      · have hto : toolOpen ob = true := by rw [← h2]; simpa using hin
        simp [processStreamEvent, hin, obNext, h1, hto]
      · have hto : toolOpen ob = false := by rw [← h2]; simpa using hin
        simp [processStreamEvent, hin, obNext, h1, hto, sseOk,
          isToolUseStart, isInputJsonDelta]
    | thinking_delta t =>
      by_cases hin : st.insideToolUseBlock
      · have hto : toolOpen ob = true := by rw [← h2]; simpa using hin
        simp [processStreamEvent, hin, obNext, h1, hto]
      · have hto : toolOpen ob = false := by rw [← h2]; simpa using hin
        simp [processStreamEvent, hin, obNext, h1, hto, sseOk,
          isToolUseStart, isInputJsonDelta]
    | otherDelta t =>
      by_cases hin : st.insideToolUseBlock
      · have hto : toolOpen ob = true := by rw [← h2]; simpa using hin
        simp [processStreamEvent, hin, obNext, h1, hto]
      · have hto : toolOpen ob = false := by rw [← h2]; simpa using hin
        simp [processStreamEvent, hin, obNext, h1, hto, sseOk,
          isToolUseStart, isInputJsonDelta]
  | content_block_stop i =>
    cases ob with
    | none => simp [wfHead] at hwf
    | some bt =>
      by_cases hbt : bt = "tool_use"
      · subst hbt
        simp [processStreamEvent, h1, obNext, toolOpen]
      · have hcond : ¬ st.currentBlockType = some "tool_use" := by
          rw [h1]; simp [hbt]
        have h2f : st.insideToolUseBlock = false := by
          rw [h2]; simp [toolOpen, hbt]
        simp [processStreamEvent, hcond, obNext, toolOpen, h2f, sseOk,
          isToolUseStart, isInputJsonDelta]
  | message_delta payload usage =>
    cases usage <;>
      simp [processStreamEvent, obNext, h1, h2, sseOk, isToolUseStart, isInputJsonDelta]
  | assistantMsg bt => simp [processStreamEvent, obNext, h1, h2]
  | userMsg bt => simp [processStreamEvent, obNext, h1, h2]
  | systemEv subtype trigger preTokens =>
    by_cases hs : subtype = "compact_boundary" <;>
      simp [processStreamEvent, hs, obNext, h1, h2, sseOk, isToolUseStart, isInputJsonDelta]
  | legacySystemEvent s => simp [processStreamEvent, obNext, h1, h2]
  | initEv => simp [processStreamEvent, obNext, h1, h2]
  | result res usage =>
    cases res with
    | none =>
      cases usage <;> simp [processStreamEvent, obNext, h1, h2]
    | some r =>
      by_cases hr : r = ""
      · cases usage <;> simp [processStreamEvent, obNext, hr, h1, h2]
      · by_cases hts : st.textSent
        · cases usage <;> simp [processStreamEvent, obNext, hr, hts, h1, h2]
        · by_cases hneg : st.sseBlockIndex < 0
          · cases usage <;>
              simp [processStreamEvent, obNext, hr, hts, hneg, h1, h2, sseOk,
                isToolUseStart, isInputJsonDelta]
          · cases usage <;>
              simp [processStreamEvent, obNext, hr, hts, hneg, h1, h2, sseOk,
                isToolUseStart, isInputJsonDelta]
  | unknown => simp [processStreamEvent, obNext, h1, h2]

/-- Helper: over a well-formed CLI event stream the translator fold
emits only clean SSE events. -/
theorem processEvents_sseOk : ∀ (evs : List CliEvent) (st : TransState) (ob : Option String),
    st.currentBlockType = ob → st.insideToolUseBlock = toolOpen ob →
    wfGo ob evs = true → (processEvents st evs).2.all sseOk = true := by
  intro evs
  induction evs with
  | nil => intro st ob _ _ _; rfl
  | cons e rest ih =>
    intro st ob h1 h2 hwf
    have hwf2 : wfHead e ob = true ∧ wfGo (obNext e ob) rest = true := by
      simpa [wfGo, Bool.and_eq_true] using hwf
    obtain ⟨hstep, hct, hin⟩ := step_sseOk st e ob h1 h2 hwf2.1
    show ((processStreamEvent st e).2 ++
      (processEvents (processStreamEvent st e).1 rest).2).all sseOk = true
    rw [List.all_append, Bool.and_eq_true]
    exact ⟨hstep, ih (processStreamEvent st e).1 (obNext e ob) hct hin hwf2.2⟩

/-- Claim C2 (confirmed): over every well-formed CLI event stream (the
block-bracketing discipline the CLI observes), no SSE event describing
a tool_use content block reaches the client: the full client timeline
contains no content_block_start of type tool_use and no
input_json_delta; a content_block_stop arriving while the open block is
a tool_use block is withheld entirely; and a tool_use
content_block_start neither produces output nor consumes an SSE block
index. -/
theorem tool_use_never_forwarded (evs : List CliEvent) (mid mdl : String)
    (st : TransState) (b : CBlock) (i : Int)
    (hwf : wfGo none evs = true) :
    (runTranslator evs mid mdl).all sseOk = true ∧
      (st.currentBlockType = some "tool_use" →
        (processStreamEvent st (.content_block_stop i)).2 = []) ∧
      (b.btype = "tool_use" →
        (processStreamEvent st (.content_block_start b)).1.sseBlockIndex = st.sseBlockIndex ∧
          (processStreamEvent st (.content_block_start b)).2 = []) := by
  refine ⟨?_, ?_, ?_⟩
  · show (SseEvent.message_start mid mdl ::
      (processEvents initState evs).2 ++ closeOutputs (processEvents initState evs).1).all
        sseOk = true
    simp only [List.all_cons, List.all_append, Bool.and_eq_true]
    refine ⟨⟨rfl, ?_⟩, closeOutputs_sseOk _⟩
    exact processEvents_sseOk evs initState none rfl rfl hwf
  · intro hct
    simp [processStreamEvent, hct]
  · intro hb
    simp [processStreamEvent, hb]

/-- Witness for claim C2 on the concrete tool-then-text stream of the
spec scenario S4, with a concrete tool_use state for the withheld-stop
and no-index conjuncts. -/
theorem tool_use_never_forwarded_witness :
    wfGo none
        [CliEvent.content_block_start ⟨"tool_use", "", "t1", "Bash"⟩,
         CliEvent.content_block_delta (.input_json_delta "\x7b\x7d"),
         CliEvent.content_block_stop 0,
         CliEvent.content_block_start ⟨"text", "", "", ""⟩,
         CliEvent.content_block_delta (.text_delta "Result"),
         CliEvent.content_block_stop 1,
         CliEvent.result (some "Result") none] = true ∧
      (runTranslator
        [CliEvent.content_block_start ⟨"tool_use", "", "t1", "Bash"⟩,
         CliEvent.content_block_delta (.input_json_delta "\x7b\x7d"),
         CliEvent.content_block_stop 0,
         CliEvent.content_block_start ⟨"text", "", "", ""⟩,
         CliEvent.content_block_delta (.text_delta "Result"),
         CliEvent.content_block_stop 1,
         CliEvent.result (some "Result") none] "m1" "sonnet").all sseOk = true :=
  ⟨by decide,
   (tool_use_never_forwarded
      [CliEvent.content_block_start ⟨"tool_use", "", "t1", "Bash"⟩,
       CliEvent.content_block_delta (.input_json_delta "\x7b\x7d"),
       CliEvent.content_block_stop 0,
       CliEvent.content_block_start ⟨"text", "", "", ""⟩,
       CliEvent.content_block_delta (.text_delta "Result"),
       CliEvent.content_block_stop 1,
       CliEvent.result (some "Result") none] "m1" "sonnet"
      initState ⟨"tool_use", "", "t1", "Bash"⟩ 0 (by decide)).1⟩

/-! ## Result synthesis (claim C5) -/

/-- Claim C5 (corrected, counterexample): after a thinking block has
opened and closed, no SSE block is open and no text_delta has been
forwarded (textSent is false), yet processing the result event emits
only a content_block_delta and no content_block_start — the source
keys the synthetic start on sseBlockIndex < 0 (no SSE block ever
started during the run), not on whether a block is currently open, as
the claim states. -/
theorem result_synthesis_counterexample :
    ((processEvents initState
        [CliEvent.content_block_start ⟨"thinking", "", "", ""⟩,
         CliEvent.content_block_stop 0]).1.textSent = false) ∧
      ((processEvents initState
        [CliEvent.content_block_start ⟨"thinking", "", "", ""⟩,
         CliEvent.content_block_stop 0]).1.thinking = false) ∧
      ((processEvents initState
        [CliEvent.content_block_start ⟨"thinking", "", "", ""⟩,
         CliEvent.content_block_stop 0]).1.textStarted = false) ∧
      (processStreamEvent
          (processEvents initState
            [CliEvent.content_block_start ⟨"thinking", "", "", ""⟩,
             CliEvent.content_block_stop 0]).1
          (.result (some "hi") none)).2 =
        [SseEvent.content_block_delta 0 (.text_delta "hi")] := by
  decide

/-- Claim C5 (amended): when the result event carries a non-empty
result string and no text_delta has been forwarded (textSent false),
the translator synthesizes text: if no SSE block has ever been started
during the stream (sseBlockIndex < 0) it first emits a
content_block_start for a text block at index 0, and it then emits
exactly one content_block_delta, at the current SSE index, whose text
is the result string with gateway tags stripped; an empty result string
emits nothing.  Consequently a stream consisting of only a result event
produces the single synthetic text block of the spec round trip. -/
theorem result_synthesis (st : TransState) (r : String) (u : Option Usage)
    (mid mdl : String) (hts : st.textSent = false) (hr : r ≠ "") :
    (processStreamEvent st (.result (some r) u)).2 =
      (if st.sseBlockIndex < 0 then
        [SseEvent.content_block_start 0 ⟨"text", "", "", ""⟩] else [])
      ++ [SseEvent.content_block_delta
            (if st.sseBlockIndex < 0 then 0 else st.sseBlockIndex)
            (.text_delta (stripGatewayTags r))] ∧
    runTranslator [.result (some r) none] mid mdl =
      [.message_start mid mdl,
       .content_block_start 0 ⟨"text", "", "", ""⟩,
       .content_block_delta 0 (.text_delta (stripGatewayTags r)),
       .final_message_delta 0,
       .message_stop] := by
  constructor
  · by_cases hneg : st.sseBlockIndex < 0 <;> cases u <;>
      simp [processStreamEvent, hr, hts, hneg]
  · simp [runTranslator, processEvents, processStreamEvent, closeOutputs, initState, hr]

/-- Witness for the amended claim C5 at the initial translator state. -/
theorem result_synthesis_witness :
    initState.textSent = false ∧
      (processStreamEvent initState (.result (some "hello") none)).2 =
        [SseEvent.content_block_start 0 ⟨"text", "", "", ""⟩,
         SseEvent.content_block_delta 0 (.text_delta "hello")] :=
  ⟨rfl, ((result_synthesis initState "hello" none "m" "s" rfl (by decide)).1).trans
    (by decide)⟩

/-! ## Identity migration (claim C4, modelled from the spec) -/

/-- Claim C4 (confirmed against the spec model): when the session key
has no exact match but some other registry entry carries the same
non-empty identity, migrate transfers that entry to the new key
preserving its uuid and identity, deletes the entry under the old key,
and the request handler resumes the existing CLI session with the
transferred uuid; migration is never performed without an identity. -/
theorem migrate_transfers_identity (reg : Registry) (key k2 : String)
    (r : SessionRecord) (id : String) (derive : String → String)
    (diskHasFile : String → Bool)
    (hne : lookupReg reg key = none) (hid : id ≠ "")
    (hfind : reg.find? (fun kr => !(kr.1 = key : Bool) && kr.2.identity = some id)
      = some (k2, r)) :
    migrate reg key (some id) = some (r, (key, r) :: eraseReg reg k2) ∧
      lookupReg ((key, r) :: eraseReg reg k2) key = some r ∧
      lookupReg ((key, r) :: eraseReg reg k2) k2 = none ∧
      r.identity = some id ∧
      resolveSession reg key (some id) derive diskHasFile =
        (r.uuid, true, (key, r) :: eraseReg reg k2) ∧
      migrate reg key none = none := by
  have hp := List.find?_some hfind
  simp only [Bool.and_eq_true, Bool.not_eq_true', decide_eq_false_iff_not,
    decide_eq_true_eq] at hp
  obtain ⟨hk2, hident⟩ := hp
  have hmig : migrate reg key (some id) = some (r, (key, r) :: eraseReg reg k2) := by
    simp [migrate, hid, hne, hfind]
  refine ⟨hmig, ?_, ?_, hident, ?_, rfl⟩
  · simp [lookupReg, List.find?]
  · have hk2s : ¬ ((key, r).1 = k2) := fun hcontra => hk2 hcontra.symm
    have hrest : (eraseReg reg k2).find? (fun kr => kr.1 = k2) = none := by
      rw [List.find?_eq_none]
      intro x hx
      have hmem := List.mem_filter.mp hx
      simp only [Bool.not_eq_true', decide_eq_false_iff_not] at hmem
      simp [hmem.2]
    simp [lookupReg, List.find?, hk2s, hrest]
  · simp [resolveSession, hne, hmig]

/-- Witness for claim C4 on a concrete one-entry registry whose stored
identity matches the identity extracted for a fresh session key. -/
theorem migrate_transfers_identity_witness :
    migrate [("oldKey", ⟨"uuid-1", 5, some "telegram:19847781"⟩)] "newKey"
        (some "telegram:19847781") =
      some (⟨"uuid-1", 5, some "telegram:19847781"⟩,
        [("newKey", ⟨"uuid-1", 5, some "telegram:19847781"⟩)]) ∧
      resolveSession [("oldKey", ⟨"uuid-1", 5, some "telegram:19847781"⟩)] "newKey"
        (some "telegram:19847781") (fun k => k ++ "-derived") (fun _ => false) =
        ("uuid-1", true, [("newKey", ⟨"uuid-1", 5, some "telegram:19847781"⟩)]) :=
  ⟨((migrate_transfers_identity
      [("oldKey", ⟨"uuid-1", 5, some "telegram:19847781"⟩)] "newKey" "oldKey"
      ⟨"uuid-1", 5, some "telegram:19847781"⟩ "telegram:19847781"
      (fun k => k ++ "-derived") (fun _ => false)
      (by decide) (by decide) (by decide)).1).trans (by decide),
   ((migrate_transfers_identity
      [("oldKey", ⟨"uuid-1", 5, some "telegram:19847781"⟩)] "newKey" "oldKey"
      ⟨"uuid-1", 5, some "telegram:19847781"⟩ "telegram:19847781"
      (fun k => k ++ "-derived") (fun _ => false)
      (by decide) (by decide) (by decide)).2.2.2.2.1).trans (by decide)⟩

/-! ## Regeneration fork (claim C6) -/

/-- Claim C6 (corrected, counterexample): on a session JSONL whose only
entry is the real user turn itself, truncateSessionForRegenerate
returns null and writes no file — the guard lastUserIdx <= 0 also
rejects index 0 — although the claim predicts that a new file with the
kept entries (here the empty list) is always written when the lines
parse and a last real user entry exists. -/
theorem truncate_regenerate_counterexample :
    isRealUser ⟨"user", false, "u1", none, some ⟨some "user", EContent.cstr "hello"⟩⟩ = true ∧
      (fun p => if p = "orig" then
          some [(⟨"user", false, "u1", none,
            some ⟨some "user", EContent.cstr "hello"⟩⟩ : SessionEntry)]
        else none : Fs) "orig" =
        some [⟨"user", false, "u1", none, some ⟨some "user", EContent.cstr "hello"⟩⟩] ∧
      (truncateSessionForRegenerate
        (fun p => if p = "orig" then
            some [(⟨"user", false, "u1", none,
              some ⟨some "user", EContent.cstr "hello"⟩⟩ : SessionEntry)]
          else none)
        "cfg" "orig" "fresh" "slug").isNone = true := by
  refine ⟨by decide, by decide, by decide⟩

/-- Claim C6 (amended): whenever the file at the original path holds
entries whose last real user entry sits at a positive index, the
function writes exactly the entries outside the removal set — the last
real user entry, its forward-transitive descendants, and the
immediately preceding file-history-snapshot if present — in their
original order to the fresh-UUID path, and every other path, in
particular the original file, is left unchanged; when the last real
user entry is the first entry, or none exists, or the file is
unreadable, nothing is written. -/
theorem truncate_regenerate_forks (fs : Fs)
    (configDir jsonlPath newUuid cwdSlug : String)
    (entries : List SessionEntry) (i : Nat) (ei : SessionEntry)
    (hread : fs jsonlPath = some entries)
    (hlast : lastWithIdx isRealUser entries = some (i, ei))
    (hi : i ≠ 0)
    (hpath : sessionFilePath configDir cwdSlug newUuid ≠ jsonlPath) :
    ∃ fs2,
      truncateSessionForRegenerate fs configDir jsonlPath newUuid cwdSlug =
        some (sessionFilePath configDir cwdSlug newUuid, fs2) ∧
      fs2 (sessionFilePath configDir cwdSlug newUuid) =
        some (entries.filter
          (fun e => !((removalList entries i ei).contains e.uuid))) ∧
      fs2 jsonlPath = fs jsonlPath ∧
      (∀ q, q ≠ sessionFilePath configDir cwdSlug newUuid → fs2 q = fs q) ∧
      (entries.filter
        (fun e => !((removalList entries i ei).contains e.uuid))).Sublist entries := by
  have htrunc : truncateEntries entries =
      some (entries.filter
        (fun e => !((removalList entries i ei).contains e.uuid))) := by
    unfold truncateEntries
    rw [hlast]
    simp [hi]
  refine ⟨fun p => if p = sessionFilePath configDir cwdSlug newUuid then
      some (entries.filter
        (fun e => !((removalList entries i ei).contains e.uuid)))
    else fs p, ?_, ?_, ?_, ?_, ?_⟩
  · simp only [truncateSessionForRegenerate, hread, htrunc]
  · simp
  · have hne2 : ¬ (jsonlPath = sessionFilePath configDir cwdSlug newUuid) :=
      fun hcontra => hpath hcontra.symm
    simp [hne2]
  · intro q hq
    simp [hq]
  · exact List.filter_sublist entries

/-- Witness for the amended claim C6 on a three-entry session file:
the middle entry is the last real user turn, so it and its reply are
removed and the fork keeps only the first entry under the fresh path. -/
theorem truncate_regenerate_forks_witness :
    lastWithIdx isRealUser
        [(⟨"assistant", false, "u0", none, none⟩ : SessionEntry),
         ⟨"user", false, "u1", some "u0", some ⟨some "user", EContent.cstr "hi"⟩⟩,
         ⟨"assistant", false, "u2", some "u1", none⟩] =
      some (1, ⟨"user", false, "u1", some "u0", some ⟨some "user", EContent.cstr "hi"⟩⟩) ∧
      (truncateSessionForRegenerate
        (fun p => if p = "orig" then
            some [(⟨"assistant", false, "u0", none, none⟩ : SessionEntry),
              ⟨"user", false, "u1", some "u0", some ⟨some "user", EContent.cstr "hi"⟩⟩,
              ⟨"assistant", false, "u2", some "u1", none⟩]
          else none)
        "cfg" "orig" "fresh" "slug").map (fun pr => pr.1) =
        some (sessionFilePath "cfg" "slug" "fresh") := by
  refine ⟨by decide, ?_⟩
  obtain ⟨fs2, hmain, _, _, _, _⟩ := truncate_regenerate_forks
    (fun p => if p = "orig" then
        some [(⟨"assistant", false, "u0", none, none⟩ : SessionEntry),
          ⟨"user", false, "u1", some "u0", some ⟨some "user", EContent.cstr "hi"⟩⟩,
          ⟨"assistant", false, "u2", some "u1", none⟩]
      else none)
    "cfg" "orig" "fresh" "slug"
    [(⟨"assistant", false, "u0", none, none⟩ : SessionEntry),
      ⟨"user", false, "u1", some "u0", some ⟨some "user", EContent.cstr "hi"⟩⟩,
      ⟨"assistant", false, "u2", some "u1", none⟩]
    1 ⟨"user", false, "u1", some "u0", some ⟨some "user", EContent.cstr "hi"⟩⟩
    (by decide) (by decide) (by decide) (by decide)
  rw [hmain]
  rfl

end CliProxy
